import Mathlib

/-!
Shallow embedding of the Adherence Scheduling Engine of the IBD-App
repository (src/app.js), together with proofs about it.

Modelling conventions:
* Calendar dates normalized to local midnight are represented as integer
  day numbers (days since the epoch); the millisecond subtraction followed
  by `Math.floor(... / msPerDay)` on two midnight-normalized dates is then
  exactly integer subtraction of day numbers.
* Clock times (`HH:MM` strings) are represented as minutes after local
  midnight; all scheduler instants (`now`, timer fire times) are minutes
  after midnight of the current day.
* JavaScript `%` on integers is truncating remainder, embedded as
  `Int.tmod`; `Math.floor(x / n)` on an integer-valued quotient is floor
  division, embedded as `Int.fdiv`; `Math.ceil(a / b)` on naturals is
  embedded as `(a + b - 1) / b`.
* The durable day-scoped Acknowledgement Store (`localStorage` key
  `takenMeds_<date>`) is a list of slot keys; the in-memory timer table
  (`notificationTimers.current`) is a list of `Timer` records; emitted
  notifications are accumulated in a log so that temporal claims can be
  stated.  All scheduler events are modelled within a single calendar day,
  matching the day-scoped store the code reads and writes.
-/

namespace IBDApp

/-- The `frequency` enumeration used throughout `src/app.js`
(string constants such as `'Once daily'`, `'Every other day'`, ...). -/
inductive Frequency where
  | onceDaily
  | twiceDaily
  | threeTimesDaily
  | everyOtherDay
  | everyThreeDays
  | everyFourDays
  | weekly
  | biWeekly
  | asNeeded
deriving DecidableEq

/-- A medication record as consumed by the scheduling engine:
`id`, `name`, `frequency`, `medTimes` (clock times, minutes after
midnight) and the optional `startDate` (day number of the
midnight-normalized anchor date). -/
structure Med where
  id : String
  name : String
  frequency : Frequency
  medTimes : List Nat
  startDate : Option Int
deriving DecidableEq

/-- JavaScript `Date.getDay()` on a day number: day of week 0..6
(the epoch day, 1970-01-01, was a Thursday, index 4). -/
def dayOfWeek (d : Int) : Int := (d + 4) % 7

/-- Embedding of `isMedicationDueToday(med, todayDate)` from src/app.js
lines 196-247.  Both dates are already normalized to midnight, so the
code's `Math.floor((today - start) / msPerDay)` is the difference of day
numbers.  JavaScript `%` is `Int.tmod`, `Math.floor` of the `/ 7`
quotient is `Int.fdiv`.  The `requiresStartDate` pre-check and the
per-branch `if (!startDate) return false` both collapse to the `none`
cases of the matches below. -/
def isMedicationDueToday (med : Med) (todayDate : Int) : Bool :=
  match med.frequency with
  | .asNeeded => false
  | .onceDaily => true
  | .twiceDaily => true
  | .threeTimesDaily => true
  | .everyOtherDay =>
    match med.startDate with
    | none => false
    | some startDate =>
      let diffDays := todayDate - startDate
      decide (0 ≤ diffDays) && decide (diffDays.tmod 2 = 0)
  | .everyThreeDays =>
    match med.startDate with
    | none => false
    | some startDate =>
      let diffDays := todayDate - startDate
      decide (0 ≤ diffDays) && decide (diffDays.tmod 3 = 0)
  | .everyFourDays =>
    match med.startDate with
    | none => false
    | some startDate =>
      let diffDays := todayDate - startDate
      decide (0 ≤ diffDays) && decide (diffDays.tmod 4 = 0)
  | .weekly =>
    match med.startDate with
    | none => false
    | some startDate =>
      decide (dayOfWeek todayDate = dayOfWeek startDate)
  | .biWeekly =>
    match med.startDate with
    | none => false
    | some startDate =>
      let diffDays := todayDate - startDate
      decide (dayOfWeek todayDate = dayOfWeek startDate) &&
        decide ((diffDays.fdiv 7).tmod 2 = 0)

/-- Milliseconds per day, the divisor used by the trip-duration
computation in src/app.js. -/
def msPerDay : Nat := 1000 * 60 * 60 * 24

/-- `Math.ceil(a / b)` for naturals with `0 < b`. -/
def jsCeilDiv (a b : Nat) : Nat := (a + b - 1) / b

/-- Embedding of `calculateDosesNeeded(frequency, durationDays)` from
src/app.js lines 1282-1315.  The guard `if (!frequency || !durationDays)
return 0` collapses to the `durationDays = 0` test (the frequency is an
enum value here, hence always truthy). -/
def calculateDosesNeeded (frequency : Frequency) (durationDays : Nat) : Nat :=
  if durationDays = 0 then 0
  else
    match frequency with
    | .onceDaily => durationDays
    | .twiceDaily => durationDays * 2
    | .threeTimesDaily => durationDays * 3
    | .everyOtherDay => jsCeilDiv durationDays 2
    | .everyThreeDays => jsCeilDiv durationDays 3
    | .everyFourDays => jsCeilDiv durationDays 4
    | .weekly => jsCeilDiv durationDays 7
    | .biWeekly => jsCeilDiv durationDays 14
    | .asNeeded => 0

/-- Embedding of the trip-duration computation in the travel effect
(src/app.js line 1324): `Math.ceil(Math.abs(ret - dep) / msPerDay) + 1`,
with the two date-time instants given in milliseconds. -/
def tripDurationDays (departureMs returnMs : Int) : Nat :=
  jsCeilDiv (returnMs - departureMs).natAbs msPerDay + 1

/-- Embedding of the primary-medication dose computation of the travel
effect (src/app.js lines 1326-1340): base doses from
`calculateDosesNeeded` plus the duration-dependent `extraDoses` buffer,
applied only when a main medication is present. -/
def travelPrimaryNeeded (mainIbdMed : Option Frequency) (durationDays : Nat) : Nat :=
  match mainIbdMed with
  | none => 0
  | some f =>
    let base := calculateDosesNeeded f durationDays
    let extraDoses := if durationDays < 14 then 2 else if durationDays ≤ 30 then 3 else 4
    base + extraDoses

/-- Embedding of the supplement dose computation of the travel effect
(src/app.js lines 1343-1346): each supplement gets only its
`calculateDosesNeeded` value, with no buffer. -/
def travelSupplementsNeeded (supplements : List (String × Frequency))
    (durationDays : Nat) : List (String × Nat) :=
  supplements.map (fun s => (s.1, calculateDosesNeeded s.2 durationDays))

/-- A due-slot key: the pair behind the string
`medicationId + "_" + clockTime` used both in the Acknowledgement Store
and as timer-table key. -/
abbrev SlotKey := String × Nat

/-- One entry of the in-memory timer table
`notificationTimers.current`: the slot key, whether this is the
`_second` (urgent) timer, and the absolute fire instant in minutes after
midnight. -/
structure Timer where
  key : SlotKey
  isSecond : Bool
  fireAt : Nat
deriving DecidableEq

/-- State of the Notification Scheduler within one calendar day:
the durable Acknowledgement Store for the day (`takenMeds_<date>` in
localStorage), the timer table, the log of emitted first/second-tier
notifications `(key, isUrgent)`, the in-memory general-notification
markers and log for medications without clock times, and the platform
notification permission. -/
structure SchedState where
  takenMeds : List SlotKey
  timers : List Timer
  notifs : List (SlotKey × Bool)
  genNotified : List String
  genNotifs : List String
  permission : Bool
deriving DecidableEq

/-- Store a timeout under a key, replacing any timer already held under
the same key (JavaScript object assignment
`notificationTimers.current[key] = setTimeout(...)`). -/
def setTimer (ts : List Timer) (k : SlotKey) (snd : Bool) (fireAt : Nat) : List Timer :=
  ts.filter (fun tm => !decide (tm.key = k ∧ tm.isSecond = snd)) ++
    [Timer.mk k snd fireAt]

/-- `clearTimeout` plus `delete` of a timer-table entry. -/
def clearTimer (ts : List Timer) (k : SlotKey) (snd : Bool) : List Timer :=
  ts.filter (fun tm => !decide (tm.key = k ∧ tm.isSecond = snd))

/-- Whether the timer table holds an entry for the given key/tier. -/
def hasTimer (ts : List Timer) (k : SlotKey) (snd : Bool) : Bool :=
  ts.any (fun tm => decide (tm.key = k ∧ tm.isSecond = snd))

/-- Per-slot arming step of the scheduling pass (src/app.js lines
301-336): skip the slot if already acknowledged in the store read at
pass start; otherwise arm the first-tier timer for `t + 60` minutes only
if that instant is still in the future.  No second-tier timer is armed
here — that happens only inside the first-tier callback. -/
def armSlot (storedTakenMeds : List SlotKey) (now : Nat) (medId : String)
    (t : Nat) (ts : List Timer) : List Timer :=
  let k : SlotKey := (medId, t)
  if k ∈ storedTakenMeds then ts
  else if now < t + 60 then setTimer ts k false (t + 60)
  else ts

/-- All timers armed by one scheduling pass, starting from the cleared
table (the pass first `clearTimeout`s and resets every previous timer). -/
def armTimers (dueMeds : List Med) (storedTakenMeds : List SlotKey)
    (now : Nat) : List Timer :=
  dueMeds.foldl
    (fun ts m => m.medTimes.foldl (fun ts2 t => armSlot storedTakenMeds now m.id t ts2) ts)
    []

/-- General-notification part of the pass for medications without clock
times (src/app.js lines 338-349): emit at most once per medication per
day, gated by the in-memory marker and the notification permission. -/
def generalPass (dueMeds : List Med) (permission : Bool)
    (genNotified genNotifs : List String) : List String × List String :=
  dueMeds.foldl
    (fun p m =>
      if m.medTimes.isEmpty then
        if m.id ∉ p.1 ∧ permission = true then (p.1 ++ [m.id], p.2 ++ [m.id]) else p
      else p)
    (genNotified, genNotifs)

/-- One scheduling pass (the body of the `useEffect` in
`MedicationReminders`, src/app.js lines 277-358): filter the medication
set by `isMedicationDueToday`, clear every previously armed timer, and
re-arm from scratch against the store read at pass start; medications
without clock times go through the general-notification path.  The pass
never writes the Acknowledgement Store. -/
def runPass (meds : List Med) (todayDate : Int) (now : Nat)
    (s : SchedState) : SchedState :=
  let dueMeds := meds.filter (fun m => isMedicationDueToday m todayDate)
  let g := generalPass dueMeds s.permission s.genNotified s.genNotifs
  { s with timers := armTimers dueMeds s.takenMeds now,
           genNotified := g.1, genNotifs := g.2 }

/-- First-tier timer callback (src/app.js lines 316-335): if the timer
is still pending, re-read the durable store and emit the first-tier
notification only when the slot is still unacknowledged and permission
is granted; then — independently of the acknowledgement check — arm the
`_second` timer when `t + 120` is still in the future, and delete the
fired timer. -/
def fireFirst (s : SchedState) (k : SlotKey) (now : Nat) : SchedState :=
  if hasTimer s.timers k false then
    let notifs :=
      if k ∉ s.takenMeds ∧ s.permission = true then s.notifs ++ [(k, false)] else s.notifs
    let ts := if now < k.2 + 120 then setTimer s.timers k true (k.2 + 120) else s.timers
    { s with notifs := notifs, timers := clearTimer ts k false }
  else s

/-- Second-tier (urgent) timer callback (src/app.js lines 324-332): if
still pending, re-read the durable store, emit the urgent notification
when still unacknowledged, and delete the timer. -/
def fireSecond (s : SchedState) (k : SlotKey) : SchedState :=
  if hasTimer s.timers k true then
    let notifs :=
      if k ∉ s.takenMeds ∧ s.permission = true then s.notifs ++ [(k, true)] else s.notifs
    { s with notifs := notifs, timers := clearTimer s.timers k true }
  else s

/-- Embedding of `handleMarkTaken(medId, time)` (src/app.js lines
361-380): record the slot as taken in the current day's durable store
and clear both the first- and second-tier timers for the key. -/
def handleMarkTaken (s : SchedState) (medId : String) (t : Nat) : SchedState :=
  let k : SlotKey := (medId, t)
  { s with takenMeds := s.takenMeds ++ [k],
           timers := clearTimer (clearTimer s.timers k false) k true }

/-- The events that can act on the scheduler state within one day:
a scheduling pass, a first- or second-tier timer callback, and a user
acknowledgement. -/
inductive SchedEvent where
  | pass (meds : List Med) (todayDate : Int) (now : Nat)
  | fireTier1 (k : SlotKey) (now : Nat)
  | fireTier2 (k : SlotKey)
  | markTaken (medId : String) (t : Nat)

/-- Serial small-step semantics: the engine is single-threaded, so each
event runs to completion before the next. -/
def schedStep (s : SchedState) (e : SchedEvent) : SchedState :=
  match e with
  | .pass meds todayDate now => runPass meds todayDate now s
  | .fireTier1 k now => fireFirst s k now
  | .fireTier2 k => fireSecond s k
  | .markTaken medId t => handleMarkTaken s medId t

/-- Run a sequence of events. -/
def schedRun (s : SchedState) (evs : List SchedEvent) : SchedState :=
  evs.foldl schedStep s

/-- The medication of the spec's end-to-end scenario: once daily at
09:00 (minute 540). -/
def medM : Med := Med.mk "M" "MedM" Frequency.onceDaily [540] none

/-- A fresh scheduler day: empty store, no timers, no notifications,
permission granted. -/
def emptySched : SchedState := SchedState.mk [] [] [] [] [] true

/-- A scheduler day on which the 09:00 slot of medication "M" is already
acknowledged. -/
def ackSched : SchedState := SchedState.mk [("M", 540)] [] [] [] [] true

/-- Truncating remainder (JavaScript `%`) vanishes exactly when the
euclidean remainder does: both characterize divisibility. -/
lemma tmod_eq_zero_iff_emod_eq_zero (a n : Int) : a.tmod n = 0 ↔ a % n = 0 := by
  rw [← Int.dvd_iff_tmod_eq_zero, Int.dvd_iff_emod_eq_zero]

/-- Claim C4: for the interval kinds (N = 2, 3, 4) with a present
`startDate`, `isMedicationDueToday` is true exactly when the day offset
`d = todayDate - startDate` satisfies `0 ≤ d` and `d mod N = 0`; in
particular `EveryOtherDay` is due exactly on even nonnegative offsets. -/
theorem interval_kinds_due_iff (med : Med) (sd todayDate : Int)
    (hsd : med.startDate = some sd) :
    (med.frequency = Frequency.everyOtherDay →
      (isMedicationDueToday med todayDate = true ↔
        0 ≤ todayDate - sd ∧ (todayDate - sd) % 2 = 0)) ∧
    (med.frequency = Frequency.everyThreeDays →
      (isMedicationDueToday med todayDate = true ↔
        0 ≤ todayDate - sd ∧ (todayDate - sd) % 3 = 0)) ∧
    (med.frequency = Frequency.everyFourDays →
      (isMedicationDueToday med todayDate = true ↔
        0 ≤ todayDate - sd ∧ (todayDate - sd) % 4 = 0)) := by
  refine ⟨fun hf => ?_, fun hf => ?_, fun hf => ?_⟩ <;>
    simp [isMedicationDueToday, hf, hsd, tmod_eq_zero_iff_emod_eq_zero]

/-- Witness for C4: medication starting on day 0 queried on day 6 with
`EveryThreeDays` is due (offset 6 is a nonnegative multiple of 3). -/
theorem interval_kinds_due_iff_witness :
    (Med.mk "m" "m" Frequency.everyThreeDays [] (some 0)).startDate = some 0 ∧
    ((Med.mk "m" "m" Frequency.everyThreeDays [] (some 0)).frequency =
        Frequency.everyThreeDays →
      (isMedicationDueToday
          (Med.mk "m" "m" Frequency.everyThreeDays [] (some 0)) 6 = true ↔
        0 ≤ (6 : Int) - 0 ∧ ((6 : Int) - 0) % 3 = 0)) :=
  ⟨rfl, (interval_kinds_due_iff
      (Med.mk "m" "m" Frequency.everyThreeDays [] (some 0)) 0 6 rfl).2.1⟩

/-- Claim C5: `BiWeekly` with a present `startDate` is due exactly on
matching days of week lying in an even 7-day block
(`floor(d / 7) mod 2 = 0`); consequently a slot due on the anchor date
itself is not due seven days later. -/
theorem biweekly_due_iff (med : Med) (sd todayDate : Int)
    (hsd : med.startDate = some sd) (hf : med.frequency = Frequency.biWeekly) :
    (isMedicationDueToday med todayDate = true ↔
      dayOfWeek todayDate = dayOfWeek sd ∧
        ((todayDate - sd).fdiv 7) % 2 = 0) ∧
    (isMedicationDueToday med sd = true →
      isMedicationDueToday med (sd + 7) = false) := by
  constructor
  · simp [isMedicationDueToday, hf, hsd, tmod_eq_zero_iff_emod_eq_zero]
  · intro _
    have h7 : sd + 7 - sd = (7 : Int) := by ring
    simp [isMedicationDueToday, hf, hsd, h7]
    intro _
    rw [tmod_eq_zero_iff_emod_eq_zero]
    decide

/-- Witness for C5: a biweekly medication anchored at day 0 is due on
day 0 and, as the claim requires, not due on day 7. -/
theorem biweekly_due_iff_witness :
    (isMedicationDueToday (Med.mk "b" "b" Frequency.biWeekly [] (some 0)) 0 = true ↔
      dayOfWeek 0 = dayOfWeek 0 ∧ (((0 : Int) - 0).fdiv 7) % 2 = 0) ∧
    (isMedicationDueToday (Med.mk "b" "b" Frequency.biWeekly [] (some 0)) 0 = true →
      isMedicationDueToday (Med.mk "b" "b" Frequency.biWeekly [] (some 0)) (0 + 7) = false) :=
  biweekly_due_iff (Med.mk "b" "b" Frequency.biWeekly [] (some 0)) 0 0 rfl rfl

/-- Claim C10: the `Weekly` branch compares only days of week, with no
`d ≥ 0` guard, so a weekly medication with a `startDate` is due on every
matching weekday — including dates strictly before the anchor, as the
conjunct about `sd - 7` exhibits. -/
theorem weekly_due_iff (med : Med) (sd todayDate : Int)
    (hsd : med.startDate = some sd) (hf : med.frequency = Frequency.weekly) :
    (isMedicationDueToday med todayDate = true ↔
      dayOfWeek todayDate = dayOfWeek sd) ∧
    isMedicationDueToday med (sd - 7) = true := by
  constructor
  · simp [isMedicationDueToday, hf, hsd]
  · simp [isMedicationDueToday, hf, hsd, dayOfWeek]
    omega

/-- Witness for C10: a weekly medication anchored at day 10 is due on
day 3, one week before its own start date. -/
theorem weekly_due_iff_witness :
    (isMedicationDueToday (Med.mk "w" "w" Frequency.weekly [] (some 10)) 3 = true ↔
      dayOfWeek 3 = dayOfWeek 10) ∧
    isMedicationDueToday (Med.mk "w" "w" Frequency.weekly [] (some 10)) (10 - 7) = true :=
  weekly_due_iff (Med.mk "w" "w" Frequency.weekly [] (some 10)) 10 3 rfl rfl

/-- Claim C8: every frequency kind that requires a `startDate` yields
`false` on every query date when the `startDate` is absent; the
embedding is a total function, so no error is raised. -/
theorem missing_start_date_never_due (med : Med) (todayDate : Int)
    (hsd : med.startDate = none)
    (hf : med.frequency = Frequency.everyOtherDay ∨
      med.frequency = Frequency.everyThreeDays ∨
      med.frequency = Frequency.everyFourDays ∨
      med.frequency = Frequency.weekly ∨
      med.frequency = Frequency.biWeekly) :
    isMedicationDueToday med todayDate = false := by
  rcases hf with hf | hf | hf | hf | hf <;> simp [isMedicationDueToday, hf, hsd]

/-- Witness for C8: a weekly medication with no start date is not due on
day 0. -/
theorem missing_start_date_never_due_witness :
    isMedicationDueToday (Med.mk "w" "w" Frequency.weekly [] none) 0 = false :=
  missing_start_date_never_due (Med.mk "w" "w" Frequency.weekly [] none) 0 rfl
    (Or.inr (Or.inr (Or.inr (Or.inl rfl))))

/-- Claim C7: for positive `durationDays` the dose calculator returns the
per-frequency formulas of the spec (daily multiples, ceiling divisions
for the interval, weekly and biweekly kinds), `AsNeeded` is always 0,
and the spec's worked examples hold. -/
theorem doses_needed_formulas (d : Nat) (hd : 0 < d) :
    calculateDosesNeeded Frequency.onceDaily d = d ∧
    calculateDosesNeeded Frequency.twiceDaily d = 2 * d ∧
    calculateDosesNeeded Frequency.threeTimesDaily d = 3 * d ∧
    calculateDosesNeeded Frequency.everyOtherDay d = (d + 1) / 2 ∧
    calculateDosesNeeded Frequency.everyThreeDays d = (d + 2) / 3 ∧
    calculateDosesNeeded Frequency.everyFourDays d = (d + 3) / 4 ∧
    calculateDosesNeeded Frequency.weekly d = (d + 6) / 7 ∧
    calculateDosesNeeded Frequency.biWeekly d = (d + 13) / 14 ∧
    (∀ d2 : Nat, calculateDosesNeeded Frequency.asNeeded d2 = 0) ∧
    calculateDosesNeeded Frequency.twiceDaily 5 = 10 ∧
    calculateDosesNeeded Frequency.weekly 10 = 2 := by
  have hne : d ≠ 0 := Nat.pos_iff_ne_zero.mp hd
  refine ⟨?_, ?_, ?_, ?_, ?_, ?_, ?_, ?_, ?_, ?_, ?_⟩ <;>
    first
      | (intro d2
         rcases Nat.eq_zero_or_pos d2 with h2 | h2
         · simp [calculateDosesNeeded, h2]
         · simp [calculateDosesNeeded, Nat.pos_iff_ne_zero.mp h2])
      | (simp [calculateDosesNeeded, hne, jsCeilDiv]
         try omega)

/-- Witness for C7: evaluation of the formulas at `durationDays = 5`. -/
theorem doses_needed_formulas_witness :
    0 < 5 ∧ calculateDosesNeeded Frequency.onceDaily 5 = 5 :=
  ⟨by decide, (doses_needed_formulas 5 (by decide)).1⟩

/-- Claim C6: the travel provisioning buffer (+2 below 14 days, +3 from
14 to 30 days, +4 above 30 days, with
`durationDays = ceil(|return - departure| / msPerDay) + 1`) is added to
the primary medication's dose count only; supplements get the bare
calculator value; and the spec's 5-day and 20-day examples hold. -/
theorem travel_buffer_primary_only (f : Frequency) (d : Nat)
    (supplements : List (String × Frequency)) :
    (d < 14 → travelPrimaryNeeded (some f) d = calculateDosesNeeded f d + 2) ∧
    (14 ≤ d → d ≤ 30 → travelPrimaryNeeded (some f) d = calculateDosesNeeded f d + 3) ∧
    (30 < d → travelPrimaryNeeded (some f) d = calculateDosesNeeded f d + 4) ∧
    travelSupplementsNeeded supplements d =
      supplements.map (fun s => (s.1, calculateDosesNeeded s.2 d)) ∧
    travelPrimaryNeeded (some Frequency.onceDaily) 5 = 7 ∧
    travelPrimaryNeeded (some Frequency.onceDaily) 20 = 23 ∧
    tripDurationDays 0 (4 * 86400000) = 5 := by
  refine ⟨fun h1 => ?_, fun h2 h3 => ?_, fun h4 => ?_, rfl, by decide, by decide, by decide⟩ <;>
    (simp only [travelPrimaryNeeded]
     split_ifs <;> omega)

/-- Witness for C6: a 20-day trip with a `TwiceDaily` primary gets
`2 x 20 + 3 = 43` doses, and one supplement gets no buffer. -/
theorem travel_buffer_primary_only_witness :
    (14 ≤ 20 → 20 ≤ 30 →
      travelPrimaryNeeded (some Frequency.twiceDaily) 20 =
        calculateDosesNeeded Frequency.twiceDaily 20 + 3) ∧
    travelSupplementsNeeded [("iron", Frequency.onceDaily)] 20 =
      [("iron", Frequency.onceDaily)].map
        (fun s => (s.1, calculateDosesNeeded s.2 20)) :=
  ⟨(travel_buffer_primary_only Frequency.twiceDaily 20
      [("iron", Frequency.onceDaily)]).2.1,
    (travel_buffer_primary_only Frequency.twiceDaily 20
      [("iron", Frequency.onceDaily)]).2.2.2.1⟩

/-- Membership in the result of one arming step: either the timer was
already in the table, or it is the freshly armed first-tier timer of an
unacknowledged slot whose first reminder is still in the future. -/
lemma armSlot_mem (storedTakenMeds : List SlotKey) (now : Nat) (medId : String)
    (t : Nat) (ts : List Timer) (tm : Timer)
    (h : tm ∈ armSlot storedTakenMeds now medId t ts) :
    tm ∈ ts ∨ (tm.key = (medId, t) ∧ tm.isSecond = false ∧ tm.fireAt = t + 60 ∧
      (medId, t) ∉ storedTakenMeds ∧ now < t + 60) := by
  by_cases hk : (medId, t) ∈ storedTakenMeds
  · simp only [armSlot, if_pos hk] at h
    exact Or.inl h
  · by_cases hn : now < t + 60
    · simp only [armSlot, if_neg hk, if_pos hn, setTimer, List.mem_append,
        List.mem_filter, List.mem_singleton] at h
      rcases h with h1 | h1
      · exact Or.inl h1.1
      · subst h1
        exact Or.inr ⟨rfl, rfl, rfl, hk, hn⟩
    · simp only [armSlot, if_neg hk, if_neg hn] at h
      exact Or.inl h

/-- Every timer produced by the inner fold over one medication's clock
times is either inherited from the accumulator or a valid fresh
first-tier timer. -/
lemma foldl_armSlot_mem (storedTakenMeds : List SlotKey) (now : Nat)
    (medId : String) (times : List Nat) (ts : List Timer) (tm : Timer)
    (h : tm ∈ times.foldl (fun a t => armSlot storedTakenMeds now medId t a) ts) :
    tm ∈ ts ∨ (tm.isSecond = false ∧ tm.fireAt = tm.key.2 + 60 ∧
      now < tm.key.2 + 60 ∧ tm.key ∉ storedTakenMeds) := by
  induction times generalizing ts with
  | nil => exact Or.inl h
  | cons t rest ih =>
    rcases ih (armSlot storedTakenMeds now medId t ts) h with h1 | h1
    · rcases armSlot_mem storedTakenMeds now medId t ts tm h1 with h2 | h2
      · exact Or.inl h2
      · obtain ⟨hkey, hsnd, hfire, hmem, hlt⟩ := h2
        refine Or.inr ⟨hsnd, ?_, ?_, ?_⟩
        · rw [hfire, hkey]
        · rw [hkey]; exact hlt
        · rw [hkey]; exact hmem
    · exact Or.inr h1

/-- Every timer armed by a scheduling pass is a first-tier timer for
`t + 60`, with `t + 60` still in the future and the slot not
acknowledged in the store the pass read. -/
lemma armTimers_spec (dueMeds : List Med) (storedTakenMeds : List SlotKey)
    (now : Nat) (tm : Timer) (h : tm ∈ armTimers dueMeds storedTakenMeds now) :
    tm.isSecond = false ∧ tm.fireAt = tm.key.2 + 60 ∧
      now < tm.key.2 + 60 ∧ tm.key ∉ storedTakenMeds := by
  unfold armTimers at h
  suffices hgen : ∀ (ms : List Med) (ts : List Timer),
      tm ∈ ms.foldl
        (fun a m => m.medTimes.foldl (fun a2 t => armSlot storedTakenMeds now m.id t a2) a)
        ts →
      tm ∈ ts ∨ (tm.isSecond = false ∧ tm.fireAt = tm.key.2 + 60 ∧
        now < tm.key.2 + 60 ∧ tm.key ∉ storedTakenMeds) by
    rcases hgen dueMeds [] h with h1 | h1
    · simp at h1
    · exact h1
  intro ms
  induction ms with
  | nil => exact fun ts h2 => Or.inl h2
  | cons m rest ih =>
    intro ts h2
    rcases ih _ h2 with h3 | h3
    · exact foldl_armSlot_mem storedTakenMeds now m.id m.medTimes ts tm h3
    · exact Or.inr h3

/-- The scheduling pass leaves the durable Acknowledgement Store
untouched. -/
lemma runPass_takenMeds (meds : List Med) (todayDate : Int) (now : Nat)
    (s : SchedState) : (runPass meds todayDate now s).takenMeds = s.takenMeds := rfl

/-- The timers after a pass are exactly the freshly armed ones. -/
lemma runPass_timers (meds : List Med) (todayDate : Int) (now : Nat)
    (s : SchedState) :
    (runPass meds todayDate now s).timers =
      armTimers (meds.filter (fun m => isMedicationDueToday m todayDate))
        s.takenMeds now := rfl

/-- The pass emits no first/second-tier notification. -/
lemma runPass_notifs (meds : List Med) (todayDate : Int) (now : Nat)
    (s : SchedState) : (runPass meds todayDate now s).notifs = s.notifs := rfl

/-- Acknowledgement entries survive every scheduler event: the store is
monotone within the day. -/
lemma step_takenMeds_mono (s : SchedState) (e : SchedEvent) (k : SlotKey)
    (h : k ∈ s.takenMeds) : k ∈ (schedStep s e).takenMeds := by
  cases e with
  | pass meds todayDate now => simpa [schedStep, runPass_takenMeds] using h
  | fireTier1 k2 now =>
    simp only [schedStep, fireFirst]
    split <;> simpa using h
  | fireTier2 k2 =>
    simp only [schedStep, fireSecond]
    split <;> simpa using h
  | markTaken medId t =>
    simp only [schedStep, handleMarkTaken]
    exact List.mem_append_left _ h

/-- No scheduler event emits a first/second-tier notification for a slot
that is already acknowledged when the event runs: every timer callback
re-reads the store before emitting. -/
lemma step_notifs_of_taken (s : SchedState) (e : SchedEvent) (k : SlotKey) (b : Bool)
    (hk : k ∈ s.takenMeds) (h : (k, b) ∈ (schedStep s e).notifs) :
    (k, b) ∈ s.notifs := by
  cases e with
  | pass meds todayDate now => simpa [schedStep, runPass_notifs] using h
  | fireTier1 k2 now =>
    simp only [schedStep, fireFirst] at h
    split at h
    · by_cases hc : k2 ∉ s.takenMeds ∧ s.permission = true
      · simp only [if_pos hc, List.mem_append, List.mem_singleton] at h
        rcases h with h1 | h1
        · exact h1
        · exfalso
          have hkk : k = k2 := congrArg Prod.fst h1
          exact hc.1 (hkk ▸ hk)
      · simpa [if_neg hc] using h
    · exact h
  | fireTier2 k2 =>
    simp only [schedStep, fireSecond] at h
    split at h
    · by_cases hc : k2 ∉ s.takenMeds ∧ s.permission = true
      · simp only [if_pos hc, List.mem_append, List.mem_singleton] at h
        rcases h with h1 | h1
        · exact h1
        · exfalso
          have hkk : k = k2 := congrArg Prod.fst h1
          exact hc.1 (hkk ▸ hk)
      · simpa [if_neg hc] using h
    · exact h
  | markTaken medId t =>
    simpa [schedStep, handleMarkTaken] using h

/-- Once acknowledged, a slot accumulates no further first/second-tier
notifications over any sequence of scheduler events. -/
lemma run_notifs_of_taken (evs : List SchedEvent) :
    ∀ (s : SchedState) (k : SlotKey) (b : Bool), k ∈ s.takenMeds →
      (k, b) ∈ (schedRun s evs).notifs → (k, b) ∈ s.notifs := by
  induction evs with
  | nil => exact fun s k b _ h => h
  | cons e rest ih =>
    intro s k b hk h
    have hmono := step_takenMeds_mono s e k hk
    have hrest := ih (schedStep s e) k b hmono h
    exact step_notifs_of_taken s e k b hk hrest

/-- Claim C2: once a slot key is marked taken in the current day's
durable store, no first- or second-tier notification is ever emitted for
it again — over any sequence of passes, timer firings and
acknowledgements — and a scheduling pass run against such a store arms
no timer at all for that key. -/
theorem ack_suppresses_notifications (s : SchedState) (k : SlotKey)
    (h : k ∈ s.takenMeds) :
    (∀ (evs : List SchedEvent) (b : Bool),
      (k, b) ∈ (schedRun s evs).notifs → (k, b) ∈ s.notifs) ∧
    (∀ (meds : List Med) (todayDate : Int) (now : Nat),
      ∀ tm ∈ (runPass meds todayDate now s).timers, tm.key ≠ k) := by
  constructor
  · exact fun evs b hin => run_notifs_of_taken evs s k b h hin
  · intro meds todayDate now tm hm hkey
    have hspec := armTimers_spec
      (meds.filter (fun m => isMedicationDueToday m todayDate)) s.takenMeds now tm
      (by rw [← runPass_timers meds todayDate now s]; exact hm)
    exact hspec.2.2.2 (hkey ▸ h)

/-- Witness for C2: the 09:00 slot of medication "M" is acknowledged in
`ackSched`, so no event sequence adds a notification for it and no pass
arms a timer for it. -/
theorem ack_suppresses_notifications_witness :
    (("M", 540) ∈ ackSched.takenMeds) ∧
    ((∀ (evs : List SchedEvent) (b : Bool),
      (("M", 540), b) ∈ (schedRun ackSched evs).notifs →
        (("M", 540), b) ∈ ackSched.notifs) ∧
    (∀ (meds : List Med) (todayDate : Int) (now : Nat),
      ∀ tm ∈ (runPass meds todayDate now ackSched).timers, tm.key ≠ ("M", 540))) :=
  ⟨by decide, ack_suppresses_notifications ackSched ("M", 540) (by decide)⟩

/-- Claim C3: a scheduling pass fully cancels the previous timer table
and re-arms from the medication set, the date and the store alone, so an
immediate second pass with unchanged inputs produces the identical timer
table. -/
theorem scheduling_pass_idempotent (meds : List Med) (todayDate : Int)
    (now : Nat) (s : SchedState) :
    (runPass meds todayDate now (runPass meds todayDate now s)).timers =
      (runPass meds todayDate now s).timers := rfl

/-- Claim C9: `handleMarkTaken` records the slot as taken in the durable
store, cancels both the first- and second-tier timers for the key
(leaving zero pending timers for it), and the store is monotone under
every scheduler event — entries are never deleted within the day. -/
theorem mark_taken_cancels_and_monotone (s : SchedState) (medId : String) (t : Nat) :
    ((medId, t) ∈ (handleMarkTaken s medId t).takenMeds) ∧
    (∀ tm ∈ (handleMarkTaken s medId t).timers, tm.key ≠ (medId, t)) ∧
    (∀ (e : SchedEvent) (k : SlotKey), k ∈ s.takenMeds → k ∈ (schedStep s e).takenMeds) := by
  refine ⟨?_, ?_, fun e k hk => step_takenMeds_mono s e k hk⟩
  · simp [handleMarkTaken]
  · intro tm hm hkey
    simp only [handleMarkTaken, clearTimer, List.mem_filter, Bool.not_eq_true',
      decide_eq_false_iff_not] at hm
    obtain ⟨⟨_, h1⟩, h2⟩ := hm
    cases hsec : tm.isSecond
    · exact h1 ⟨hkey, hsec⟩
    · exact h2 ⟨hkey, hsec⟩

/-- Witness for C9: acknowledging the 09:00 slot of "M" on a state that
holds both of its timers. -/
theorem mark_taken_cancels_and_monotone_witness :
    ((("M", 540) ∈
      (handleMarkTaken
        (SchedState.mk [] [Timer.mk ("M", 540) false 600, Timer.mk ("M", 540) true 660]
          [] [] [] true) "M" 540).takenMeds) ∧
    (∀ tm ∈ (handleMarkTaken
        (SchedState.mk [] [Timer.mk ("M", 540) false 600, Timer.mk ("M", 540) true 660]
          [] [] [] true) "M" 540).timers, tm.key ≠ ("M", 540)) ∧
    (∀ (e : SchedEvent) (k : SlotKey),
      k ∈ (SchedState.mk [] [Timer.mk ("M", 540) false 600, Timer.mk ("M", 540) true 660]
          [] [] [] true).takenMeds →
      k ∈ (schedStep
        (SchedState.mk [] [Timer.mk ("M", 540) false 600, Timer.mk ("M", 540) true 660]
          [] [] [] true) e).takenMeds)) :=
  mark_taken_cancels_and_monotone
    (SchedState.mk [] [Timer.mk ("M", 540) false 600, Timer.mk ("M", 540) true 660]
      [] [] [] true) "M" 540

/-- Counterexample to Claim C1: in the spec's end-to-end scenario
(medication "M" once daily at 09:00 = minute 540, pass running at 10:05
= minute 605, nothing acknowledged), `reminder1At` = 10:00 is past and
`reminder2At` = 11:00 is still future, yet the pass arms *no* timer at
all — in particular no second-tier timer — and a would-be urgent firing
at 11:00 emits nothing. -/
theorem direct_second_tier_counterexample :
    540 + 60 ≤ 605 ∧ 605 < 540 + 120 ∧
    (runPass [medM] 0 605 emptySched).timers = [] ∧
    (schedRun emptySched
      [SchedEvent.pass [medM] 0 605, SchedEvent.fireTier2 ("M", 540)]).notifs = [] := by
  refine ⟨by decide, by decide, by decide, by decide⟩

/-- Amended Claim C1: when `reminder1At = t + 60` is already past at
arming time, the pass arms no timer of either tier for the slot (the
second-tier timer is only ever armed from within the first-tier
callback), and the second-tier callback for that slot is a no-op after
the pass — no urgent notification fires at `reminder2At`. -/
theorem past_first_reminder_arms_nothing (meds : List Med) (todayDate : Int)
    (now : Nat) (s : SchedState) (medId : String) (t : Nat)
    (h : t + 60 ≤ now) :
    (∀ tm ∈ (runPass meds todayDate now s).timers, tm.key ≠ (medId, t)) ∧
    fireSecond (runPass meds todayDate now s) (medId, t) =
      runPass meds todayDate now s := by
  constructor
  · intro tm hm hkey
    have hspec := armTimers_spec
      (meds.filter (fun m => isMedicationDueToday m todayDate)) s.takenMeds now tm
      (by rw [← runPass_timers meds todayDate now s]; exact hm)
    have hlt := hspec.2.2.1
    rw [hkey] at hlt
    omega
  · have hno : hasTimer (runPass meds todayDate now s).timers (medId, t) true = false := by
      rw [hasTimer, List.any_eq_false]
      intro tm hm
      have hspec := armTimers_spec
        (meds.filter (fun m => isMedicationDueToday m todayDate)) s.takenMeds now tm
        (by rw [← runPass_timers meds todayDate now s]; exact hm)
      simp [hspec.1]
    simp [fireSecond, hno]

/-- Witness for the amended C1 at the scenario's numbers: 09:00 slot,
pass at 10:05. -/
theorem past_first_reminder_arms_nothing_witness :
    540 + 60 ≤ 605 ∧
    ((∀ tm ∈ (runPass [medM] 0 605 emptySched).timers, tm.key ≠ ("M", 540)) ∧
      fireSecond (runPass [medM] 0 605 emptySched) ("M", 540) =
        runPass [medM] 0 605 emptySched) :=
  ⟨by decide, past_first_reminder_arms_nothing [medM] 0 605 emptySched "M" 540 (by decide)⟩

end IBDApp
